import Mathlib

/-!
Verification development for the mongodb-dash repository.

The definitions below are a shallow embedding of the backend query
controller (`query.controller.js`), the role-policy model
(`RolePolicy.js`), the admin controller and seed script, the NLP
service client (`nlp.service.js`), and the chat-window confirm flow of
the frontend.  Mongo documents become Lean structures, the Mongo store
becomes an explicit `List` of records, asynchronous handlers become
pure functions from request and store to response and store, and the
external NLP service becomes a function parameter returning either a
payload or an error message (mirroring an axios resolution or throw).
JavaScript truthiness on optional strings is modelled explicitly
(`jsTruthy`, `jsOrStr`): `undefined` and the empty string are falsy.
-/

namespace MDash

/-- One result document, as a list of field name / value pairs. -/
abbrev Doc := List (String × String)

/-- A collection grant inside `rolePolicySchema.permissions.collections`
(`RolePolicy.js`): scope name, allowed operation list, allowed field
list and restricted field list, with the schema defaults. -/
structure CollectionGrant where
  database : String := "*"
  name : String
  operations : List String := ["find"]
  fields : List String := ["*"]
  restrictedFields : List String := []
  deriving DecidableEq

/-- The `permissions` sub-document of `rolePolicySchema`:
a list of collection grants plus `maxLimit` (schema default 100; kept
optional because the controller fallback literal carries no
`maxLimit`). -/
structure Permissions where
  collections : List CollectionGrant
  maxLimit : Option Nat := some 100
  deriving DecidableEq

/-- A `RolePolicy` document (`RolePolicy.js`), with a surrogate
numeric id standing for the Mongo object id. -/
structure RolePolicy where
  id : Nat
  name : String
  description : String := ""
  permissions : Permissions
  isDefault : Bool := false
  deriving DecidableEq

/-- JavaScript truthiness of an optional string value:
`undefined` and `""` are falsy. -/
def jsTruthy (v : Option String) : Bool :=
  match v with
  | none => false
  | some s => s ≠ ""

/-- The JavaScript `v || d` idiom on an optional string. -/
def jsOrStr (v : Option String) (d : String) : String :=
  match v with
  | none => d
  | some s => if s = "" then d else s

/-- The JavaScript `a || b` idiom where both sides are optional
strings. -/
def jsOrOpt (a b : Option String) : Option String :=
  if jsTruthy a then a else b

/-- The fallback permissions literal of `query.controller.js`
(lines 43-45 and 199-201): a single `*` grant with `find` only, used
whenever `user.rolePolicy?.permissions` is nullish.  The literal has
no `maxLimit` field. -/
def fallbackPermissions : Permissions :=
  { collections := [{ database := "*", name := "*", operations := ["find"],
                      fields := ["*"], restrictedFields := [] }],
    maxLimit := none }

/-- The permission resolution performed by `getQueryPlan` and
`executeQuery`: `user.rolePolicy?.permissions || fallback`.  The
argument is the populated role policy reference of the acting user
(`none` when the user has no assigned policy or the reference is
dangling).  No other data is consulted. -/
def resolvePermissions (assigned : Option RolePolicy) : Permissions :=
  match assigned with
  | some p => p.permissions
  | none => fallbackPermissions

/-- Modelled from the spec: the Permission Resolver contract of
section 4.1 (assigned policy, else the single policy flagged default,
else the built-in fallback).  The default-policy clause has no
counterpart anywhere in the source; this definition exists only to be
compared with `resolvePermissions`. -/
def resolvePermissionsSpec (assigned : Option RolePolicy)
    (policies : List RolePolicy) : Permissions :=
  match assigned with
  | some p => p.permissions
  | none =>
    match policies.find? (fun p => p.isDefault) with
    | some d => d.permissions
    | none => fallbackPermissions

/-- The Analyst permissions seeded by `seed-rbac.js`. -/
def analystPermissions : Permissions :=
  { collections := [{ database := "*", name := "*",
                      operations := ["find", "aggregate"], fields := ["*"],
                      restrictedFields := ["salary", "pii", "password", "email"] }],
    maxLimit := some 100 }

/-- The Manager permissions seeded by `seed-rbac.js`. -/
def managerPermissions : Permissions :=
  { collections := [{ database := "*", name := "*",
                      operations := ["find", "aggregate", "insert", "update", "delete"],
                      fields := ["*"], restrictedFields := [] }],
    maxLimit := some 1000 }

/-- The admin permissions seeded by `seed-rbac.js`. -/
def adminPermissions : Permissions :=
  { collections := [{ database := "*", name := "*",
                      operations := ["find", "aggregate", "insert", "update", "delete"],
                      fields := ["*"], restrictedFields := [] }],
    maxLimit := some 10000 }

/-- The seeded Analyst policy document (`seed-rbac.js` lines 12-28),
the only seeded policy with `isDefault` set. -/
def analystPolicy (pid : Nat) : RolePolicy :=
  { id := pid, name := "Analyst",
    description := "Can query all collections but cannot see salaries or PII.",
    permissions := analystPermissions, isDefault := true }

/-- The acting user as seen by the query controller (`req.user` after
`populate` of the role policy reference): identity, role name, the
populated policy (or `none`), and `preferences.defaultDatabase`. -/
structure User where
  id : Nat
  role : String := "user"
  rolePolicy : Option RolePolicy := none
  defaultDatabase : String := "test"
  deriving DecidableEq

/-- A proposed MongoDB operation payload (the `mql` value produced by
the translator).  The backend treats it as opaque apart from its
`collection` field (`query.controller.js` line 120); the operation
name and the statically determinable filter / projection field names
are carried so that the spec-side authorization predicate can be
stated. -/
structure Mql where
  collection : String
  operation : String := "find"
  filterFields : List String := []
  projectionFields : List String := []
  deriving DecidableEq

/-- A `QueryHistory` document (a Turn).  Fields absent on a given
write keep the schema defaults (`0`, `[]`, `none`); `timestamp` is the
creation time. -/
structure Turn where
  id : Nat
  userId : Nat
  conversationId : String
  naturalQuery : String
  generatedMQL : Option Mql := none
  explanation : Option String := none
  database : String := ""
  collection : Option String := none
  resultsCount : Nat := 0
  resultsSample : List Doc := []
  executionTime : Nat := 0
  success : Bool
  errorMessage : Option String := none
  timestamp : Nat := 0
  deriving DecidableEq

/-- One role-tagged message of the assembled conversation history. -/
structure ChatMsg where
  role : String
  content : String
  deriving DecidableEq

/-- Insertion step of the descending-timestamp sort used to model
`.sort(\x7b timestamp: -1 \x7d)`. -/
def insertByTsDesc (t : Turn) : List Turn → List Turn
  | [] => [t]
  | x :: xs => if x.timestamp < t.timestamp then t :: x :: xs else x :: insertByTsDesc t xs

/-- Stable sort of turns by decreasing timestamp, modelling the Mongo
query modifier `.sort(\x7b timestamp: -1 \x7d)`. -/
def sortByTsDesc : List Turn → List Turn
  | [] => []
  | x :: xs => insertByTsDesc x (sortByTsDesc xs)

/-- Insertion step of the ascending-timestamp sort used to model
`.sort(\x7b timestamp: 1 \x7d)`. -/
def insertByTsAsc (t : Turn) : List Turn → List Turn
  | [] => [t]
  | x :: xs => if t.timestamp < x.timestamp then t :: x :: xs else x :: insertByTsAsc t xs

/-- Stable sort of turns by increasing timestamp, modelling the Mongo
query modifier `.sort(\x7b timestamp: 1 \x7d)`. -/
def sortByTsAsc : List Turn → List Turn
  | [] => []
  | x :: xs => insertByTsAsc x (sortByTsAsc xs)

/-- The stored turns of one conversation of one user, in store order:
the Mongo filter `\x7b userId, conversationId \x7d` on the
`QueryHistory` collection. -/
def convTurns (store : List Turn) (uid : Nat) (cid : String) : List Turn :=
  store.filter (fun t => t.userId = uid && t.conversationId = cid)

/-- The assistant-side rendering of one prior turn
(`query.controller.js` lines 35-38 and 191-194):
`q.errorMessage ? Error: ... : q.explanation || Found N results.` -/
def renderAssistant (q : Turn) : String :=
  if jsTruthy q.errorMessage then "Error: " ++ q.errorMessage.getD ""
  else jsOrStr q.explanation ("Found " ++ toString q.resultsCount ++ " results.")

/-- The context assembly of `getQueryPlan` (lines 28-39) and
`executeQuery` (lines 184-195): when the conversation id is truthy,
fetch that conversation of the acting user sorted most-recent-first,
keep the first 5, reverse, and render each turn as a user message
followed by an assistant message; otherwise the history is `[]`. -/
def assembleHistory (store : List Turn) (uid : Nat) (cid : String) : List ChatMsg :=
  if cid = "" then []
  else
    (((sortByTsDesc (convTurns store uid cid)).take 5).reverse.map (fun q =>
      [{ role := "user", content := q.naturalQuery },
       { role := "assistant", content := renderAssistant q }])).flatten

/-- The request body of the planning and direct-execution endpoints. -/
structure QueryRequest where
  query : Option String := none
  database : Option String := none
  collection : Option String := none
  conversationId : Option String := none
  deriving DecidableEq

/-- The parameter object posted to the NLP service by `getQueryPlan`
and `executeQuery` (`nlp.service.js` forwards it verbatim). -/
structure TranslateParams where
  query : String
  database : String
  collection : Option String
  history : List ChatMsg
  permissions : Permissions
  userRole : String
  policyName : Option String
  customSystemPrompt : Option String
  deriving DecidableEq

/-- The parameter object built by `getQueryPlan` (lines 50-60) for the
`/plan` call: validated query text, database defaulting to the user
preference, assembled history, resolved permissions, role and policy
names, and the custom system prompt. -/
def planParams (user : User) (q : String) (req : QueryRequest)
    (customPrompt : Option String) (store : List Turn) : TranslateParams :=
  { query := q,
    database := jsOrStr req.database user.defaultDatabase,
    collection := req.collection,
    history := assembleHistory store user.id (req.conversationId.getD ""),
    permissions := resolvePermissions user.rolePolicy,
    userRole := user.role,
    policyName := user.rolePolicy.map (fun p => p.name),
    customSystemPrompt := customPrompt }

/-- The HTTP response of a controller, reduced to the status code, the
top-level success flag, and the message field. -/
structure ApiResponse where
  status : Nat
  success : Bool
  message : Option String := none
  deriving DecidableEq

/-- The payload returned by the NLP service `/execute-mql` endpoint
(consumed by `executeConfirmedQuery`): the result documents and an
explanation, both possibly absent. -/
structure ExecResult where
  results : Option (List Doc) := none
  explanation : Option String := none
  deriving DecidableEq

/-- Resolution of the `/execute-mql` call: either a payload or a
thrown error message (`handleNlpError` in `nlp.service.js` always
rethrows with a message). -/
inductive ExecOutcome where
  | ok (payload : ExecResult)
  | svcError (msg : String)
  deriving DecidableEq

/-- The request body of the confirmed-execution endpoint
(`POST /api/query/execute-confirmed`).  The opaque
`metadata.visualization` passthrough is omitted. -/
structure ConfirmedRequest where
  mql : Option Mql := none
  naturalQuery : Option String := none
  conversationId : Option String := none
  database : Option String := none
  collection : Option String := none
  deriving DecidableEq

/-- The `executeConfirmedQuery` controller (`query.controller.js`
lines 92-154).  `svc` is the NLP service client `executeConfirmed`,
receiving exactly the MQL payload and the database name; `freshId`
models `uuidv4()`, `elapsed` the measured execution time, `nextId` and
`now` the Mongo id and timestamp of a created document.  On success a
Turn with `success := true` is appended; on a service error the
controller answers 500 and creates nothing. -/
def executeConfirmedQuery (svc : Mql → String → ExecOutcome) (user : User)
    (req : ConfirmedRequest) (freshId : String) (elapsed nextId now : Nat)
    (store : List Turn) : ApiResponse × List Turn :=
  match req.mql with
  | none =>
    ({ status := 400, success := false,
       message := some "No MQL query provided for execution" }, store)
  | some mql =>
    match svc mql (jsOrStr req.database user.defaultDatabase) with
    | .svcError _ =>
      ({ status := 500, success := false,
         message := some "Error executing confirmed query" }, store)
    | .ok execution =>
      let n := (execution.results.map List.length).getD 0
      let turn : Turn :=
        { id := nextId,
          userId := user.id,
          conversationId := jsOrStr req.conversationId freshId,
          naturalQuery := jsOrStr req.naturalQuery "Confirmed Query",
          generatedMQL := some mql,
          explanation := some (jsOrStr execution.explanation
            ("Found " ++ toString n ++ " results.")),
          database := jsOrStr req.database user.defaultDatabase,
          collection := some (jsOrStr req.collection mql.collection),
          resultsCount := n,
          resultsSample := (execution.results.map (fun rs => rs.take 100)).getD [],
          executionTime := elapsed,
          success := true,
          errorMessage := none,
          timestamp := now }
      ({ status := 200, success := true }, store ++ [turn])

/-- The payload returned by the NLP service `/translate` endpoint
(consumed by `executeQuery`).  Chart metadata and token usage are
omitted as opaque passthrough. -/
structure NlpResponse where
  mql_query : Option Mql := none
  explanation : Option String := none
  collection : Option String := none
  results : Option (List Doc) := none
  success : Bool := true
  error : Option String := none
  deriving DecidableEq

/-- Resolution of the `/translate` call. -/
inductive TrOutcome where
  | ok (payload : NlpResponse)
  | svcError (msg : String)
  deriving DecidableEq

/-- The parameter object built by `executeQuery` (lines 206-215) for
the `/translate` call, from the validated query text, the effective
conversation id, the assembled history and the resolved
permissions. -/
def execParams (user : User) (q : String) (req : QueryRequest)
    (customPrompt : Option String) (convId : String) (store : List Turn) :
    TranslateParams :=
  { query := q,
    database := jsOrStr req.database user.defaultDatabase,
    collection := req.collection,
    history := assembleHistory store user.id convId,
    permissions := resolvePermissions user.rolePolicy,
    userRole := user.role,
    policyName := user.rolePolicy.map (fun p => p.name),
    customSystemPrompt := customPrompt }

/-- The `executeQuery` controller (`query.controller.js` lines
159-293): validation, context assembly, permission resolution, the
`/translate` call, and history recording.  On a resolved call one
Turn is appended carrying the translator outcome (`success`,
`errorMessage`); on a thrown service error the catch block appends
one failed Turn (with a second fresh conversation id `failFreshId`,
because the catch re-evaluates `req.body.conversationId || uuidv4()`)
and answers 500. -/
def executeQuery (svc : TranslateParams → TrOutcome) (user : User)
    (req : QueryRequest) (customPrompt : Option String)
    (freshId failFreshId : String) (elapsed nextId now : Nat)
    (store : List Turn) : ApiResponse × List Turn :=
  match req.query with
  | none =>
    ({ status := 400, success := false, message := some "Please provide a query" }, store)
  | some q =>
    if q = "" then
      ({ status := 400, success := false, message := some "Please provide a query" }, store)
    else if q.length > 5000 then
      ({ status := 400, success := false,
         message := some "Query cannot exceed 5000 characters" }, store)
    else
      let convId := jsOrStr req.conversationId freshId
      match svc (execParams user q req customPrompt convId store) with
      | .svcError msg =>
        let failedTurn : Turn :=
          { id := nextId,
            userId := user.id,
            conversationId := jsOrStr req.conversationId failFreshId,
            naturalQuery := q,
            database := jsOrStr req.database user.defaultDatabase,
            executionTime := elapsed,
            success := false,
            errorMessage := some msg,
            timestamp := now }
        ({ status := 500, success := false, message := some "Error executing query" },
         store ++ [failedTurn])
      | .ok nlp =>
        let n := (nlp.results.map List.length).getD 0
        let turn : Turn :=
          { id := nextId,
            userId := user.id,
            conversationId := convId,
            naturalQuery := q,
            generatedMQL := nlp.mql_query,
            explanation := nlp.explanation,
            database := jsOrStr req.database user.defaultDatabase,
            collection := jsOrOpt nlp.collection req.collection,
            resultsCount := n,
            resultsSample := (nlp.results.map (fun rs => rs.take 100)).getD [],
            executionTime := elapsed,
            success := nlp.success,
            errorMessage := if jsTruthy nlp.error then nlp.error else none,
            timestamp := now }
        ({ status := 200, success := true }, store ++ [turn])

/-- The payload returned by the NLP service `/plan` endpoint. -/
structure PlanPayload where
  mql_query : Option Mql := none
  explanation : Option String := none
  needs_confirmation : Bool := false
  planType : String := "conversational"
  deriving DecidableEq

/-- Resolution of the `/plan` call. -/
inductive PlanOutcome where
  | ok (payload : PlanPayload)
  | svcError (msg : String)
  deriving DecidableEq

/-- The `getQueryPlan` controller (`query.controller.js` lines 9-87):
validation, context assembly via `planParams`, and the `/plan` call.
The handler never writes to the `QueryHistory` store: both the success
response and the error path leave it untouched.  The visualization
hint passthrough is omitted. -/
def getQueryPlan (svc : TranslateParams → PlanOutcome) (user : User)
    (req : QueryRequest) (customPrompt : Option String)
    (store : List Turn) : ApiResponse × List Turn :=
  match req.query with
  | none =>
    ({ status := 400, success := false, message := some "Please provide a query" }, store)
  | some q =>
    if q = "" then
      ({ status := 400, success := false, message := some "Please provide a query" }, store)
    else if q.length > 5000 then
      ({ status := 400, success := false,
         message := some "Query cannot exceed 5000 characters" }, store)
    else
      match svc (planParams user q req customPrompt store) with
      | .svcError _ =>
        ({ status := 500, success := false,
           message := some "Error generating query plan" }, store)
      | .ok _ => ({ status := 200, success := true }, store)

/-- The `deleteQuery` controller (`query.controller.js` lines
371-399): `findOne` on the pair of the record id and the acting user
id; absent match answers 404 and changes nothing, a match is removed
with `deleteOne` (deletion of that document, keyed by its id). -/
def deleteQuery (store : List Turn) (uid qid : Nat) : ApiResponse × List Turn :=
  match store.find? (fun t => t.id = qid && t.userId = uid) with
  | none => ({ status := 404, success := false, message := some "Query not found" }, store)
  | some q =>
    ({ status := 200, success := true, message := some "Query deleted successfully" },
     store.eraseP (fun t => t.id = q.id))

/-- The shape of one record returned by the paginated history listing:
every `QueryHistory` field except the excluded `results.sample`
projection (`.select(-results.sample)` in `getHistory`). -/
structure HistoryView where
  id : Nat
  userId : Nat
  conversationId : String
  naturalQuery : String
  generatedMQL : Option Mql
  explanation : Option String
  database : String
  collection : Option String
  resultsCount : Nat
  executionTime : Nat
  success : Bool
  errorMessage : Option String
  timestamp : Nat
  deriving DecidableEq

/-- The projection applied by `getHistory`: all fields of the Turn
except the result sample. -/
def toHistoryView (t : Turn) : HistoryView :=
  { id := t.id, userId := t.userId, conversationId := t.conversationId,
    naturalQuery := t.naturalQuery, generatedMQL := t.generatedMQL,
    explanation := t.explanation, database := t.database,
    collection := t.collection, resultsCount := t.resultsCount,
    executionTime := t.executionTime, success := t.success,
    errorMessage := t.errorMessage, timestamp := t.timestamp }

/-- The `getHistory` controller (`query.controller.js` lines
298-330): the acting users turns sorted most-recent-first, the
`skip` and `limit` cursor modifiers (skip applies before limit), the
sample-excluding projection, the total count and the has-more flag
`total > skip + limit`. -/
def getHistory (store : List Turn) (uid lim skp : Nat) :
    List HistoryView × Nat × Bool :=
  let mine := store.filter (fun t => t.userId = uid)
  let page := ((sortByTsDesc mine).drop skp).take lim
  (page.map toHistoryView, mine.length, decide (skp + lim < mine.length))

/-- The `getConversation` controller (`query.controller.js` lines
335-366): the full turns of one conversation of the acting user in
ascending timestamp order; an empty result answers 404 (`none`). -/
def getConversation (store : List Turn) (uid : Nat) (cid : String) :
    Option (List Turn) :=
  let conversation := sortByTsAsc (convTurns store uid cid)
  if conversation.isEmpty then none else some conversation

/-- The number of policies flagged default in a policy store. -/
def countDefaults (store : List RolePolicy) : Nat :=
  (store.filter (fun p => p.isDefault)).length

/-- The `createPolicy` admin controller (`admin.controller.js` lines
19-26): `RolePolicy.create(req.body)` persists the body as given; the
only failure is the unique index on `name` (the 400 catch).  No
`isDefault` check of any kind is performed. -/
def createPolicy (store : List RolePolicy) (body : RolePolicy) :
    ApiResponse × List RolePolicy :=
  if store.any (fun p => p.name = body.name) then
    ({ status := 400, success := false }, store)
  else ({ status := 201, success := true }, store ++ [body])

/-- A partial role-policy update body (the fields `findByIdAndUpdate`
may set). -/
structure PolicyUpdate where
  name : Option String := none
  description : Option String := none
  permissions : Option Permissions := none
  isDefault : Option Bool := none
  deriving DecidableEq

/-- Application of a partial update to one policy document. -/
def applyPolicyUpdate (p : RolePolicy) (u : PolicyUpdate) : RolePolicy :=
  { p with name := u.name.getD p.name,
           description := u.description.getD p.description,
           permissions := u.permissions.getD p.permissions,
           isDefault := u.isDefault.getD p.isDefault }

/-- The `updatePolicy` admin controller (`admin.controller.js` lines
31-42): `findByIdAndUpdate` with the body as given, 404 when the id is
unknown.  Other documents are never touched, so an `isDefault := true`
update does not clear any other default flag. -/
def updatePolicy (store : List RolePolicy) (pid : Nat) (body : PolicyUpdate) :
    ApiResponse × List RolePolicy :=
  if store.any (fun p => p.id = pid) then
    ({ status := 200, success := true },
     store.map (fun p => if p.id = pid then applyPolicyUpdate p body else p))
  else ({ status := 404, success := false, message := some "Policy not found" }, store)

/-- One `findOneAndUpdate` upsert of `seed-rbac.js`, keyed by policy
name: an existing document gets the listed fields set (`isDefault`
only when the update carries it), a missing one is inserted with the
schema default `isDefault := false` when the update omits it. -/
def upsertPolicy (store : List RolePolicy) (name description : String)
    (perms : Permissions) (dflt : Option Bool) (freshId : Nat) : List RolePolicy :=
  if store.any (fun p => p.name = name) then
    store.map (fun p => if p.name = name then
      { p with description := description, permissions := perms,
               isDefault := dflt.getD p.isDefault }
      else p)
  else
    store ++ [{ id := freshId, name := name, description := description,
                permissions := perms, isDefault := dflt.getD false }]

/-- The policy seeding of `seed-rbac.js`: upserts of the Analyst
(flagged default), Manager and admin policies, in that order. -/
def seedRBAC (store : List RolePolicy) (id1 id2 id3 : Nat) : List RolePolicy :=
  upsertPolicy
    (upsertPolicy
      (upsertPolicy store "Analyst"
        "Can query all collections but cannot see salaries or PII."
        analystPermissions (some true) id1)
      "Manager" "Full access to all collections and fields."
      managerPermissions none id2)
    "admin" "Full administrative access." adminPermissions none id3

/-- Coverage of a collection by one grant, per spec section 4.5 (a):
the grant scope is `*` or names the collection exactly. -/
def grantCoversCollection (g : CollectionGrant) (coll : String) : Bool :=
  g.name = "*" || g.name = coll

/-- The statically determinable field names of an operation: its
selection and projection fields. -/
def staticFields (mql : Mql) : List String :=
  mql.filterFields ++ mql.projectionFields

/-- Modelled from the spec: the Execution Authorizer check of section
4.5 — (a) some grant covers the target collection, (b) that grants
operation set allows the requested operation, (c) no statically
determinable field of the operation lies in that grants restricted
set.  No counterpart exists in the source; the definition exists to
state what the spec requires of the execution stage. -/
def authorizedBy (perms : Permissions) (mql : Mql) : Bool :=
  perms.collections.any (fun g =>
    grantCoversCollection g mql.collection
    && g.operations.contains mql.operation
    && (staticFields mql).all (fun f => !(g.restrictedFields.contains f)))

/-- One message of the chat window (`ChatWindow.jsx`), with the fields
the confirm flow reads or writes. -/
structure UiMessage where
  id : Nat
  isUser : Bool := false
  query : String := ""
  mql : Option Mql := none
  explanation : String := ""
  needsConfirmation : Bool := false
  isExecuting : Bool := false
  uiError : Bool := false
  timestamp : Nat := 0
  deriving DecidableEq

/-- The chat-window component state relevant to the confirm flow: the
current conversation id, the message list, and the single
session-wide `pendingPlan` variable. -/
structure ChatState where
  conversationId : Option String := none
  messages : List UiMessage := []
  pendingPlan : Option UiMessage := none
  deriving DecidableEq

/-- Map a function over the last element of a message list (the
`setMessages` mapper of the chat window touches only the index
`prev.length - 1`). -/
def mapLast (f : UiMessage → UiMessage) : List UiMessage → List UiMessage
  | [] => []
  | [x] => [f x]
  | x :: y :: xs => x :: mapLast f (y :: xs)

/-- The `handleConfirmQuery` handler (`ChatWindow.jsx` lines 520-540),
modelled up to the point the execute-confirmed request is issued:
with no pending plan it returns immediately (no state change, no
request); with a pending plan it strips the confirmation UI from the
last message, marks it executing, and issues the request built from
the pending plan and the current conversation id. -/
def handleConfirmQuery (s : ChatState) : ChatState × Option ConfirmedRequest :=
  match s.pendingPlan with
  | none => (s, none)
  | some plan =>
    let msgs := mapLast
      (fun m => { m with needsConfirmation := false, isExecuting := true }) s.messages
    ({ s with messages := msgs },
     some { mql := plan.mql, naturalQuery := some plan.query,
            conversationId := s.conversationId })

/-- The rendering of a stored conversation into chat messages when a
conversation is selected (`ChatWindow.jsx` lines 366-385): each Turn
becomes a user message and an assistant message, none of which carries
a confirmation flag. -/
def historyUiMessages (queries : List Turn) : List UiMessage :=
  (queries.map (fun q =>
    [{ id := 2 * q.id, isUser := true, query := q.naturalQuery,
       timestamp := q.timestamp },
     { id := 2 * q.id + 1, isUser := false, query := q.naturalQuery,
       mql := q.generatedMQL,
       explanation := if jsTruthy q.errorMessage
         then "Error: " ++ q.errorMessage.getD ""
         else "Found " ++ toString q.resultsCount ++ " results.",
       uiError := !q.success, timestamp := q.timestamp }])).flatten

/-- The conversation-loading effect (`ChatWindow.jsx` lines 365-398):
when the selected conversation resolves with its queries, the message
list is replaced by the rendered history and the conversation id is
switched.  The `pendingPlan` variable is not touched. -/
def selectConversation (s : ChatState) (selectedId : String)
    (queries : Option (List Turn)) : ChatState :=
  match queries with
  | none => s
  | some qs =>
    { s with messages := historyUiMessages qs, conversationId := some selectedId }

/-- The full confirm flow: the client confirm handler followed, when a
request was issued, by the backend confirmed-execution controller.
Returns the client state at request time, the response (when any
request was made), and the resulting `QueryHistory` store. -/
def confirmFlow (svc : Mql → String → ExecOutcome) (user : User) (s : ChatState)
    (freshId : String) (elapsed nextId now : Nat) (store : List Turn) :
    ChatState × Option ApiResponse × List Turn :=
  match handleConfirmQuery s with
  | (s2, none) => (s2, none, store)
  | (s2, some req) =>
    let r := executeConfirmedQuery svc user req freshId elapsed nextId now store
    (s2, some r.1, r.2)

/-- The last `n` elements of a list, in order. -/
def lastN (n : Nat) (l : List α) : List α :=
  (l.reverse.take n).reverse

/-! Concrete fixtures used by the counterexamples and witnesses. -/

/-- A policy granting `find` on the `products` collection only. -/
def productsOnlyPolicy : RolePolicy :=
  { id := 21, name := "ProductsReader",
    description := "find on products only",
    permissions :=
      { collections := [{ database := "*", name := "products",
                          operations := ["find"], fields := ["*"],
                          restrictedFields := [] }],
        maxLimit := some 100 } }

/-- A policy whose single grant lists `salary` both in the allowed
fields and in the restricted fields. -/
def conflictedPolicy : RolePolicy :=
  { id := 22, name := "Conflicted",
    description := "salary both allowed and restricted",
    permissions :=
      { collections := [{ database := "*", name := "*",
                          operations := ["find"], fields := ["*", "salary"],
                          restrictedFields := ["salary"] }],
        maxLimit := some 100 } }

/-- A find on the `employees` collection projecting the `salary`
field. -/
def salaryMql : Mql :=
  { collection := "employees", operation := "find",
    projectionFields := ["salary"] }

/-- A result document exposing a salary value. -/
def salaryDoc : Doc := [("name", "Ada"), ("salary", "100000")]

/-- An execution service that resolves every call with one salary
document. -/
def okSvc : Mql → String → ExecOutcome :=
  fun _ _ => .ok { results := some [salaryDoc], explanation := some "Executed." }

/-- An execution service that rejects every call, as the NLP client
does when the service is unreachable. -/
def failSvc : Mql → String → ExecOutcome :=
  fun _ _ => .svcError "NLP service is not available. Please ensure it is running."

/-- A user assigned the products-only policy. -/
def cexUser : User :=
  { id := 7, role := "Analyst", rolePolicy := some productsOnlyPolicy,
    defaultDatabase := "corp" }

/-- A confirmed-execution request carrying the salary projection. -/
def cexConfirmReq : ConfirmedRequest :=
  { mql := some salaryMql, naturalQuery := some "show me all salaries",
    conversationId := some "conv-1" }

/-- A user assigned the policy with `salary` both allowed and
restricted. -/
def c3User : User :=
  { id := 8, role := "Conflicted", rolePolicy := some conflictedPolicy,
    defaultDatabase := "corp" }

/-- A confirmed-execution request carrying the salary projection, for
the conflicted-policy user. -/
def c3Req : ConfirmedRequest :=
  { mql := some salaryMql, naturalQuery := some "salaries",
    conversationId := some "conv-3" }

/-- The assistant-side rendering the claims describe: the
error-prefixed message for a failed turn, else the recorded
explanation. -/
def claimAssistant (q : Turn) : String :=
  if q.success then q.explanation.getD ""
  else "Error: " ++ q.errorMessage.getD ""

/-- A turn on which the code rendering and the claim rendering agree:
a successful turn carries no error message and a non-empty
explanation, a failed turn carries a non-empty error message. -/
def claimRenderOk (q : Turn) : Prop :=
  (q.success = true → q.errorMessage = none ∧ q.explanation.getD "" ≠ "")
  ∧ (q.success = false → q.errorMessage.getD "" ≠ "")

/-- Decidability of the rendering agreement condition. -/
instance (q : Turn) : Decidable (claimRenderOk q) := by
  unfold claimRenderOk
  infer_instance

/-- A policy body flagged default, distinct in name from every seeded
policy. -/
def secondDefaultPolicy : RolePolicy :=
  { id := 4, name := "SecondDefault", description := "another default",
    permissions := managerPermissions, isDefault := true }

/-- The pending plan message proposed while conversation `A` was
current. -/
def planMsgA : UiMessage :=
  { id := 2, query := "show salaries", mql := some salaryMql,
    explanation := "I will run a find on employees.", needsConfirmation := true }

/-- The chat state of conversation `A` right after the plan arrived:
the plan message is last and pending. -/
def chatStateA : ChatState :=
  { conversationId := some "A",
    messages := [{ id := 1, isUser := true, query := "show salaries" }, planMsgA],
    pendingPlan := some planMsgA }

/-- A stored turn of conversation `B`. -/
def convBTurn : Turn :=
  { id := 30, userId := 7, conversationId := "B", naturalQuery := "prior question",
    explanation := some "Found 1 results.", resultsCount := 1, success := true,
    timestamp := 50 }

/-- The chat state after the user switches from conversation `A` to
conversation `B`: the message list is replaced, the conversation id
becomes `B`, and the pending plan of `A` survives. -/
def chatStateB : ChatState :=
  selectConversation chatStateA "B" (some [convBTurn])

/-- A translator payload for a resolved direct execution. -/
def okNlp : NlpResponse :=
  { mql_query := some salaryMql, explanation := some "Done.",
    results := some [salaryDoc], success := true }

/-- A translate service resolving every call. -/
def okTrSvc : TranslateParams → TrOutcome := fun _ => .ok okNlp

/-- A translate service timing out on every call. -/
def failTrSvc : TranslateParams → TrOutcome :=
  fun _ => .svcError "NLP service request timed out. Query may be too complex."

/-- A plan service timing out on every call. -/
def failPlanSvc : TranslateParams → PlanOutcome :=
  fun _ => .svcError "NLP service request timed out. Query may be too complex."

/-- A direct-execution request. -/
def c6Req : QueryRequest :=
  { query := some "list products", conversationId := some "c6" }

/-- A successful turn of the fixture conversation, timestamp 1. -/
def c7t1 : Turn :=
  { id := 101, userId := 7, conversationId := "chat", naturalQuery := "q1",
    explanation := some "Found 2 results.", resultsCount := 2, success := true,
    timestamp := 1 }

/-- A failed turn of the fixture conversation, timestamp 2. -/
def c7t2 : Turn :=
  { id := 102, userId := 7, conversationId := "chat", naturalQuery := "q2",
    errorMessage := some "boom", success := false, timestamp := 2 }

/-- A successful turn of the fixture conversation, timestamp 3. -/
def c7t3 : Turn :=
  { id := 103, userId := 7, conversationId := "chat", naturalQuery := "q3",
    explanation := some "Found 1 results.", resultsCount := 1, success := true,
    timestamp := 3 }

/-- The fixture store: three turns of one conversation in creation
order. -/
def c7store : List Turn := [c7t1, c7t2, c7t3]

/-! Helper lemmas about the sorting and erasure models. -/

theorem mem_insertByTsDesc {x t : Turn} {l : List Turn} :
    x ∈ insertByTsDesc t l ↔ x = t ∨ x ∈ l := by
  induction l with
  | nil => simp [insertByTsDesc]
  | cons y ys ih =>
    by_cases h : y.timestamp < t.timestamp
    · simp [insertByTsDesc, h]
    · simp [insertByTsDesc, h, ih]
      tauto

theorem mem_sortByTsDesc {x : Turn} {l : List Turn} :
    x ∈ sortByTsDesc l ↔ x ∈ l := by
  induction l with
  | nil => simp [sortByTsDesc]
  | cons y ys ih => simp [sortByTsDesc, mem_insertByTsDesc, ih]

theorem insertByTsDesc_append_of_lt {t : Turn} {l : List Turn}
    (h : ∀ y ∈ l, t.timestamp < y.timestamp) :
    insertByTsDesc t l = l ++ [t] := by
  induction l with
  | nil => rfl
  | cons y ys ih =>
    have hy : t.timestamp < y.timestamp := h y (List.mem_cons_self y ys)
    have hy' : ¬ y.timestamp < t.timestamp := by omega
    simp only [insertByTsDesc, if_neg hy', List.cons_append]
    rw [ih (fun z hz => h z (List.mem_cons_of_mem y hz))]

theorem sortByTsDesc_of_increasing {l : List Turn}
    (h : l.Pairwise (fun a b => a.timestamp < b.timestamp)) :
    sortByTsDesc l = l.reverse := by
  induction l with
  | nil => rfl
  | cons x xs ih =>
    rcases List.pairwise_cons.mp h with ⟨hx, hxs⟩
    have : sortByTsDesc (x :: xs) = insertByTsDesc x (sortByTsDesc xs) := rfl
    rw [this, ih hxs, insertByTsDesc_append_of_lt, List.reverse_cons]
    intro y hy
    exact hx y (List.mem_reverse.mp hy)

theorem mem_insertByTsAsc {x t : Turn} {l : List Turn} :
    x ∈ insertByTsAsc t l ↔ x = t ∨ x ∈ l := by
  induction l with
  | nil => simp [insertByTsAsc]
  | cons y ys ih =>
    by_cases h : t.timestamp < y.timestamp
    · simp [insertByTsAsc, h]
    · simp [insertByTsAsc, h, ih]
      tauto

theorem mem_sortByTsAsc {x : Turn} {l : List Turn} :
    x ∈ sortByTsAsc l ↔ x ∈ l := by
  induction l with
  | nil => simp [sortByTsAsc]
  | cons y ys ih => simp [sortByTsAsc, mem_insertByTsAsc, ih]

/-! Claim C2 — the Permission Resolver. -/

/-- Claim C2 (counterexample): the resolver never consults the
default-flagged policy.  With a user holding no assigned policy and a
policy store consisting of the seeded Analyst policy (flagged
default), the claim requires the resolver to return the Analyst
permissions (as the spec-worded `resolvePermissionsSpec` does), but
the code resolver `resolvePermissions` returns the built-in fallback,
which differs from them. -/
theorem resolver_default_policy_ignored :
    (analystPolicy 1).isDefault = true
    ∧ resolvePermissionsSpec none [analystPolicy 1] = analystPermissions
    ∧ resolvePermissions none = fallbackPermissions
    ∧ fallbackPermissions ≠ analystPermissions := by
  refine ⟨rfl, rfl, rfl, ?_⟩
  decide

/-- Claim C2 (amended): the resolver returns the assigned policy
permissions when present and otherwise the built-in fallback — a
single `*` grant allowing only `find` with no field restrictions; the
`isDefault` flag of stored policies is never consulted, so a user
without an assigned policy receives the fallback even when a
default-flagged policy exists.  The fallback grant set is non-empty
and `find`-only, hence never unrestricted. -/
theorem resolver_assigned_or_fallback :
    (∀ p : RolePolicy, resolvePermissions (some p) = p.permissions)
    ∧ resolvePermissions none = fallbackPermissions
    ∧ fallbackPermissions.collections.length = 1
    ∧ ∀ g ∈ fallbackPermissions.collections,
        g.name = "*" ∧ g.operations = ["find"] ∧ g.restrictedFields = [] := by
  refine ⟨fun p => rfl, rfl, rfl, ?_⟩
  intro g hg
  simp only [fallbackPermissions, List.mem_singleton] at hg
  subst hg
  exact ⟨rfl, rfl, rfl⟩

/-- Claim C2 (witness): the amended resolver description evaluated at
the seeded Analyst policy and at the fallback grant itself. -/
theorem resolver_assigned_or_fallback_witness :
    resolvePermissions (some (analystPolicy 1)) = (analystPolicy 1).permissions
    ∧ ({ database := "*", name := "*", operations := ["find"], fields := ["*"],
         restrictedFields := [] } : CollectionGrant).name = "*" :=
  ⟨resolver_assigned_or_fallback.1 (analystPolicy 1),
   (resolver_assigned_or_fallback.2.2.2
     { database := "*", name := "*", operations := ["find"], fields := ["*"],
       restrictedFields := [] } (by decide)).1⟩

/-! Claim C1 — the Execution Authorizer re-check. -/

/-- Claim C1 (counterexample): no policy re-check happens before a
confirmed execution.  The acting user holds a policy granting `find`
on `products` only; the confirmed operation targets `employees`, so
the spec check of section 4.5 (`authorizedBy`) fails clause (a).  The
claim requires a security-violation abort recorded as a failed Turn,
but `executeConfirmedQuery` answers 200 and appends a Turn with
`success = true` whose sample carries the returned salary document. -/
theorem confirmedExecution_skips_authorization :
    authorizedBy (resolvePermissions cexUser.rolePolicy) salaryMql = false
    ∧ (executeConfirmedQuery okSvc cexUser cexConfirmReq "fresh" 5 1 10 []).1.status = 200
    ∧ (executeConfirmedQuery okSvc cexUser cexConfirmReq "fresh" 5 1 10 []).1.success = true
    ∧ ((executeConfirmedQuery okSvc cexUser cexConfirmReq "fresh" 5 1 10 []).2.map
        (fun t => t.success)) = [true]
    ∧ ((executeConfirmedQuery okSvc cexUser cexConfirmReq "fresh" 5 1 10 []).2.map
        (fun t => t.resultsSample)) = [[salaryDoc]] := by
  decide

/-- Claim C1 (amended): the execution stage performs no authorization:
its outcome does not depend on the acting users role policy in any
way, and whenever the execution service resolves, a Turn with
`success = true` is appended regardless of the policy; the service
call itself receives only the MQL payload and the database name, so no
downstream check on the user policy is possible either. -/
theorem confirmedExecution_policy_independent (svc : Mql → String → ExecOutcome)
    (u : User) (p q : Option RolePolicy) (req : ConfirmedRequest)
    (fid : String) (el nid now : Nat) (store : List Turn) :
    executeConfirmedQuery svc { u with rolePolicy := p } req fid el nid now store
      = executeConfirmedQuery svc { u with rolePolicy := q } req fid el nid now store
    ∧ ∀ mql execution, req.mql = some mql →
        svc mql (jsOrStr req.database u.defaultDatabase) = .ok execution →
        (executeConfirmedQuery svc { u with rolePolicy := p } req fid el nid now store).1.status = 200
        ∧ ∃ t : Turn,
            (executeConfirmedQuery svc { u with rolePolicy := p } req fid el nid now store).2
              = store ++ [t]
            ∧ t.success = true := by
  refine ⟨rfl, ?_⟩
  intro mql execution hmql hsvc
  simp only [executeConfirmedQuery, hmql, hsvc]
  exact ⟨trivial, _, rfl, rfl⟩

/-- Claim C1 (witness): the policy-independence statement evaluated at
the products-only user and the salary request. -/
theorem confirmedExecution_policy_independent_witness :
    (executeConfirmedQuery okSvc { cexUser with rolePolicy := some productsOnlyPolicy }
        cexConfirmReq "fresh" 5 1 10 []).1.status = 200
    ∧ ∃ t : Turn,
        (executeConfirmedQuery okSvc { cexUser with rolePolicy := some productsOnlyPolicy }
            cexConfirmReq "fresh" 5 1 10 []).2 = [] ++ [t]
        ∧ t.success = true :=
  (confirmedExecution_policy_independent okSvc cexUser (some productsOnlyPolicy) none
      cexConfirmReq "fresh" 5 1 10 []).2 salaryMql
    { results := some [salaryDoc], explanation := some "Executed." } rfl rfl

/-! Claim C3 — restriction wins over allowance. -/

/-- Claim C3 (counterexample): the field `salary` lies in both the
allowed-fields and the restricted-fields set of the single grant of
the acting users policy, that grant covers the target collection, and
`salary` is a statically determinable field of the confirmed
operation; the claim requires the execution authorization to reject
the access, but the execution succeeds (status 200) and the stored
Turn carries the unfiltered salary document. -/
theorem restrictionWins_not_enforced :
    (∃ g ∈ (resolvePermissions c3User.rolePolicy).collections,
        "salary" ∈ g.restrictedFields ∧ "salary" ∈ g.fields
        ∧ grantCoversCollection g salaryMql.collection = true)
    ∧ "salary" ∈ staticFields salaryMql
    ∧ (executeConfirmedQuery okSvc c3User c3Req "f3" 4 2 11 []).1.status = 200
    ∧ ((executeConfirmedQuery okSvc c3User c3Req "f3" 4 2 11 []).2.map
        (fun t => t.resultsSample)) = [[salaryDoc]] := by
  decide

/-- Claim C3 (amended): restricted-field information only flows to the
plan stage — `planParams` hands the resolved permissions, restricted
fields included, to the external translator — while the execution
stage rejects nothing: even when a restricted field of a covering
grant occurs statically in the confirmed operation, the execution
succeeds and the stored sample is the service result truncated to 100
documents, with no field filtered out. -/
theorem restrictedFields_plan_stage_only (u : User) (q : String)
    (req : QueryRequest) (cp : Option String) (store : List Turn)
    (svc : Mql → String → ExecOutcome) (creq : ConfirmedRequest)
    (fid : String) (el nid now : Nat) (mql : Mql) (execution : ExecResult)
    (g : CollectionGrant) (f : String)
    (hg : g ∈ (resolvePermissions u.rolePolicy).collections)
    (hf : f ∈ g.restrictedFields)
    (hcov : grantCoversCollection g mql.collection = true)
    (hfld : f ∈ staticFields mql)
    (hmql : creq.mql = some mql)
    (hsvc : svc mql (jsOrStr creq.database u.defaultDatabase) = .ok execution) :
    (planParams u q req cp store).permissions = resolvePermissions u.rolePolicy
    ∧ (executeConfirmedQuery svc u creq fid el nid now store).1.status = 200
    ∧ ∃ t : Turn,
        (executeConfirmedQuery svc u creq fid el nid now store).2 = store ++ [t]
        ∧ t.success = true
        ∧ t.resultsSample = (execution.results.map (fun rs => rs.take 100)).getD [] := by
  refine ⟨rfl, ?_⟩
  simp only [executeConfirmedQuery, hmql, hsvc]
  exact ⟨trivial, _, rfl, rfl, rfl⟩

/-- Claim C3 (witness): the amended statement evaluated at the
conflicted-policy user and the salary request. -/
theorem restrictedFields_plan_stage_only_witness :
    (planParams c3User "salaries" {} none []).permissions
      = resolvePermissions c3User.rolePolicy
    ∧ (executeConfirmedQuery okSvc c3User c3Req "f3" 4 2 11 []).1.status = 200
    ∧ ∃ t : Turn,
        (executeConfirmedQuery okSvc c3User c3Req "f3" 4 2 11 []).2 = [] ++ [t]
        ∧ t.success = true
        ∧ t.resultsSample
            = ((some [salaryDoc] : Option (List Doc)).map (fun rs => rs.take 100)).getD [] :=
  restrictedFields_plan_stage_only c3User "salaries" {} none [] okSvc c3Req "f3" 4 2 11
    salaryMql { results := some [salaryDoc], explanation := some "Executed." }
    { database := "*", name := "*", operations := ["find"], fields := ["*", "salary"],
      restrictedFields := ["salary"] } "salary"
    (by decide) (by decide) (by decide) (by decide) rfl rfl

/-! Claim C4 — uniqueness of the default flag. -/

/-- Claim C4 (counterexample): after seeding (which flags the Analyst
policy default) followed by one `createPolicy` call whose body is
flagged default, two policies carry `isDefault = true` — no code path
enforces uniqueness of the flag. -/
theorem defaultFlag_duplicated_by_create :
    countDefaults (seedRBAC [] 1 2 3) = 1
    ∧ countDefaults (createPolicy (seedRBAC [] 1 2 3) secondDefaultPolicy).2 = 2 := by
  decide

/-- Claim C4 (amended): the seed script alone leaves exactly one
default-flagged policy (the Analyst), but neither `createPolicy` nor
`updatePolicy` preserves uniqueness: creating a fresh-named policy
flagged default increments the number of defaults without clearing
any existing flag, and updating one policy never touches the flag of
any other stored policy. -/
theorem defaultFlag_not_enforced (store : List RolePolicy) (body : RolePolicy)
    (pid : Nat) (upd : PolicyUpdate) (i1 i2 i3 : Nat)
    (hfresh : store.any (fun p => p.name = body.name) = false)
    (hdef : body.isDefault = true) :
    countDefaults (seedRBAC [] i1 i2 i3) = 1
    ∧ countDefaults (createPolicy store body).2 = countDefaults store + 1
    ∧ ∀ p ∈ store, p.id ≠ pid → p ∈ (updatePolicy store pid upd).2 := by
  refine ⟨?_, ?_, ?_⟩
  · rfl
  · simp [createPolicy, hfresh, countDefaults, List.filter_append, hdef]
  · intro p hp hne
    unfold updatePolicy
    by_cases hex : store.any (fun x => x.id = pid)
    · simp only [hex, if_true]
      exact List.mem_map.mpr ⟨p, hp, by simp [hne]⟩
    · simp only [hex, if_false]
      exact hp

/-- Claim C4 (witness): the amended statement evaluated at the seeded
store and the second default policy; the analyst policy (id 1)
survives an update of policy 2 untouched. -/
theorem defaultFlag_not_enforced_witness :
    countDefaults (seedRBAC [] 1 2 3) = 1
    ∧ countDefaults (createPolicy (seedRBAC [] 1 2 3) secondDefaultPolicy).2
        = countDefaults (seedRBAC [] 1 2 3) + 1
    ∧ analystPolicy 1 ∈ (updatePolicy (seedRBAC [] 1 2 3) 2 { isDefault := some true }).2 :=
  ⟨(defaultFlag_not_enforced (seedRBAC [] 1 2 3) secondDefaultPolicy 2
      { isDefault := some true } 1 2 3 (by decide) rfl).1,
   (defaultFlag_not_enforced (seedRBAC [] 1 2 3) secondDefaultPolicy 2
      { isDefault := some true } 1 2 3 (by decide) rfl).2.1,
   (defaultFlag_not_enforced (seedRBAC [] 1 2 3) secondDefaultPolicy 2
      { isDefault := some true } 1 2 3 (by decide) rfl).2.2
     (analystPolicy 1) (by decide) (by decide)⟩

/-! Claim C5 — confirming with no pending plan. -/

/-- Claim C5 (counterexample): the pending-plan state is session-wide,
not scoped to a conversation.  A plan proposed while conversation `A`
was current survives switching to conversation `B` (for which no plan
was ever proposed); confirming then issues the execution, the backend
answers 200, and a Turn is recorded under conversation `B` — not a
no-op and a Turn is written, against the claim instance for
conversation `B`. -/
theorem staleConfirm_executes_and_records :
    chatStateA.conversationId = some "A"
    ∧ chatStateB.conversationId = some "B"
    ∧ chatStateB.pendingPlan = chatStateA.pendingPlan
    ∧ (confirmFlow okSvc cexUser chatStateB "fB" 5 31 60 [convBTurn]).2.1
        = some { status := 200, success := true, message := none }
    ∧ ((confirmFlow okSvc cexUser chatStateB "fB" 5 31 60 [convBTurn]).2.2.map
        (fun t => t.conversationId)) = ["B", "B"] := by
  decide

/-- Claim C5 (amended): confirming when the session holds no pending
plan at all is a strict no-op — the client state is unchanged, no
execution request is issued, and the Turn store is untouched;
conversation scoping, however, does not exist: the single pending-plan
variable survives a conversation switch and is then confirmable under
the new conversation id. -/
theorem confirm_noop_without_pending (svc : Mql → String → ExecOutcome)
    (u : User) (s : ChatState) (fid : String) (el nid now : Nat)
    (store : List Turn) (h : s.pendingPlan = none) :
    confirmFlow svc u s fid el nid now store = (s, none, store) := by
  simp [confirmFlow, handleConfirmQuery, h]

/-- Claim C5 (witness): the no-op statement evaluated at a fresh chat
state. -/
theorem confirm_noop_without_pending_witness :
    confirmFlow okSvc cexUser { conversationId := some "A" } "f" 1 1 1 []
      = ({ conversationId := some "A" }, none, []) :=
  confirm_noop_without_pending okSvc cexUser { conversationId := some "A" }
    "f" 1 1 1 [] rfl

/-! Claim C6 — a Turn for every execution attempt. -/

/-- Claim C6 (counterexample): a failed confirmed execution writes no
Turn.  With the execution service failing, `executeConfirmedQuery`
answers 500 and the `QueryHistory` store stays empty — against the
claim that every execution attempt, success or failure, is
recorded. -/
theorem failedConfirmedExecution_unrecorded :
    (executeConfirmedQuery failSvc cexUser cexConfirmReq "fresh" 5 1 10 []).1.status = 500
    ∧ (executeConfirmedQuery failSvc cexUser cexConfirmReq "fresh" 5 1 10 []).2 = [] := by
  decide

/-- Helper: the planning endpoint never writes to the Turn store, on
any input and any service outcome. -/
theorem getQueryPlan_preserves_store (svc : TranslateParams → PlanOutcome)
    (u : User) (req : QueryRequest) (cp : Option String) (store : List Turn) :
    (getQueryPlan svc u req cp store).2 = store := by
  unfold getQueryPlan
  cases hq : req.query with
  | none => rfl
  | some q =>
    dsimp only
    split_ifs
    · rfl
    · rfl
    · cases hsvc : svc (planParams u q req cp store) <;> rfl

/-- Claim C6 (amended): the direct-execution endpoint appends exactly
one Turn per attempt — carrying the translator outcome on resolution
and a failed Turn with the thrown message on a service error — while
the confirmed-execution endpoint records only successes (a service
error leaves the store untouched), and a plan-stage failure writes no
Turn. -/
theorem turn_per_attempt_by_path (tsvc : TranslateParams → TrOutcome)
    (psvc : TranslateParams → PlanOutcome) (esvc : Mql → String → ExecOutcome)
    (u : User) (qreq : QueryRequest) (creq : ConfirmedRequest)
    (cp : Option String) (fid ffid : String) (el nid now : Nat)
    (store : List Turn) (q : String)
    (hq : qreq.query = some q) (hq0 : ¬ q = "") (hq5 : ¬ q.length > 5000) :
    (∀ nlp, tsvc (execParams u q qreq cp (jsOrStr qreq.conversationId fid) store) = .ok nlp →
      ∃ t : Turn, (executeQuery tsvc u qreq cp fid ffid el nid now store).2 = store ++ [t]
        ∧ t.success = nlp.success)
    ∧ (∀ msg, tsvc (execParams u q qreq cp (jsOrStr qreq.conversationId fid) store)
          = .svcError msg →
      ∃ t : Turn, (executeQuery tsvc u qreq cp fid ffid el nid now store).2 = store ++ [t]
        ∧ t.success = false ∧ t.errorMessage = some msg)
    ∧ (∀ mql msg, creq.mql = some mql →
        esvc mql (jsOrStr creq.database u.defaultDatabase) = .svcError msg →
        (executeConfirmedQuery esvc u creq fid el nid now store).2 = store)
    ∧ (getQueryPlan psvc u qreq cp store).2 = store := by
  refine ⟨?_, ?_, ?_, getQueryPlan_preserves_store psvc u qreq cp store⟩
  · intro nlp hsvc
    simp only [executeQuery, hq, if_neg hq0, if_neg hq5, hsvc]
    exact ⟨_, rfl, rfl⟩
  · intro msg hsvc
    simp only [executeQuery, hq, if_neg hq0, if_neg hq5, hsvc]
    exact ⟨_, rfl, rfl, rfl⟩
  · intro mql msg hmql hsvc
    simp only [executeConfirmedQuery, hmql, hsvc]

/-- Claim C6 (witness): the per-path recording behaviour evaluated at
concrete services — a resolving translator, a timing-out translator, a
failing execution service and a timing-out plan service. -/
theorem turn_per_attempt_by_path_witness :
    (∃ t : Turn, (executeQuery okTrSvc cexUser c6Req none "f" "g" 3 40 70 []).2 = [] ++ [t]
      ∧ t.success = okNlp.success)
    ∧ (∃ t : Turn, (executeQuery failTrSvc cexUser c6Req none "f" "g" 3 40 70 []).2 = [] ++ [t]
      ∧ t.success = false
      ∧ t.errorMessage = some "NLP service request timed out. Query may be too complex.")
    ∧ (executeConfirmedQuery failSvc cexUser cexConfirmReq "f" 3 40 70 []).2 = []
    ∧ (getQueryPlan failPlanSvc cexUser c6Req none []).2 = [] :=
  ⟨(turn_per_attempt_by_path okTrSvc failPlanSvc failSvc cexUser c6Req cexConfirmReq
      none "f" "g" 3 40 70 [] "list products" rfl (by decide) (by decide)).1 okNlp rfl,
   (turn_per_attempt_by_path failTrSvc failPlanSvc failSvc cexUser c6Req cexConfirmReq
      none "f" "g" 3 40 70 [] "list products" rfl (by decide) (by decide)).2.1
     "NLP service request timed out. Query may be too complex." rfl,
   (turn_per_attempt_by_path okTrSvc failPlanSvc failSvc cexUser c6Req cexConfirmReq
      none "f" "g" 3 40 70 [] "list products" rfl (by decide) (by decide)).2.2.1
     salaryMql "NLP service is not available. Please ensure it is running." rfl rfl,
   (turn_per_attempt_by_path okTrSvc failPlanSvc failSvc cexUser c6Req cexConfirmReq
      none "f" "g" 3 40 70 [] "list products" rfl (by decide) (by decide)).2.2.2⟩

/-! Claim C7 — chronological context assembly. -/

/-- Claim C7: for a conversation whose stored turns appear in creation
order with increasing timestamps, and whose turns carry a non-empty
error message exactly when failed and a non-empty explanation when
successful, the assembled history is the last five turns in strict
chronological order, each rendered as the user message holding the
recorded input followed by the assistant message that is the
error-prefixed message for a failed turn and the recorded explanation
otherwise; an empty conversation id yields an empty history. -/
theorem contextAssembler_chronological (store : List Turn) (uid : Nat)
    (cid : String) (hcid : cid ≠ "")
    (hinc : (convTurns store uid cid).Pairwise (fun a b => a.timestamp < b.timestamp))
    (hren : ∀ q ∈ convTurns store uid cid, claimRenderOk q) :
    assembleHistory store uid cid
      = ((lastN 5 (convTurns store uid cid)).map (fun q =>
          [({ role := "user", content := q.naturalQuery } : ChatMsg),
           { role := "assistant", content := claimAssistant q }])).flatten
    ∧ assembleHistory store uid "" = [] := by
  constructor
  · unfold assembleHistory
    rw [if_neg hcid, sortByTsDesc_of_increasing hinc]
    unfold lastN
    congr 1
    apply List.map_congr_left
    intro q hq
    have hmem : q ∈ convTurns store uid cid := by
      have h1 := List.mem_reverse.mp hq
      exact List.mem_reverse.mp (List.mem_of_mem_take h1)
    rcases hren q hmem with ⟨hsucc, hfail⟩
    by_cases hs : q.success = true
    · rcases hsucc hs with ⟨hnone, hexp⟩
      cases hexp' : q.explanation with
      | none => rw [hexp'] at hexp; simp at hexp
      | some e =>
        rw [hexp'] at hexp
        simp only [Option.getD_some] at hexp
        simp [renderAssistant, claimAssistant, jsTruthy, hnone, hs, jsOrStr,
          hexp', hexp]
    · have hs' : q.success = false := by
        cases hq2 : q.success
        · rfl
        · exact absurd hq2 hs
      have herr := hfail hs'
      cases herr' : q.errorMessage with
      | none => rw [herr'] at herr; simp at herr
      | some m =>
        rw [herr'] at herr
        simp only [Option.getD_some] at herr
        simp [renderAssistant, claimAssistant, jsTruthy, hs', herr', herr]
  · simp [assembleHistory]

/-- Claim C7 (witness): the chronological assembly evaluated at the
three-turn fixture conversation. -/
theorem contextAssembler_chronological_witness :
    assembleHistory c7store 7 "chat"
      = ((lastN 5 (convTurns c7store 7 "chat")).map (fun q =>
          [({ role := "user", content := q.naturalQuery } : ChatMsg),
           { role := "assistant", content := claimAssistant q }])).flatten
    ∧ assembleHistory c7store 7 "" = [] :=
  contextAssembler_chronological c7store 7 "chat" (by decide) (by decide) (by decide)

/-! Claim C8 — bounded result sample, full count, stored latency. -/

/-- Claim C8: every recorded execution attempt stores a result sample
of at most 100 documents (the service result truncated by
`slice(0, 100)`), the full result-set length as the count, and the
measured execution latency; a failed direct execution stores an empty
sample.  The unbounded result set itself never reaches the store. -/
theorem recorded_sample_bounded (esvc : Mql → String → ExecOutcome)
    (tsvc : TranslateParams → TrOutcome) (u : User) (creq : ConfirmedRequest)
    (qreq : QueryRequest) (cp : Option String) (fid ffid : String)
    (el nid now : Nat) (store : List Turn) (mql : Mql) (execution : ExecResult)
    (rs : List Doc) (q : String) (nlp : NlpResponse) (msg : String)
    (hq : qreq.query = some q) (hq0 : ¬ q = "") (hq5 : ¬ q.length > 5000) :
    (creq.mql = some mql →
      esvc mql (jsOrStr creq.database u.defaultDatabase) = .ok execution →
      execution.results = some rs →
      ∃ t : Turn, (executeConfirmedQuery esvc u creq fid el nid now store).2 = store ++ [t]
        ∧ t.resultsSample = rs.take 100
        ∧ t.resultsSample.length ≤ 100
        ∧ t.resultsCount = rs.length
        ∧ t.executionTime = el)
    ∧ (tsvc (execParams u q qreq cp (jsOrStr qreq.conversationId fid) store) = .ok nlp →
      nlp.results = some rs →
      ∃ t : Turn, (executeQuery tsvc u qreq cp fid ffid el nid now store).2 = store ++ [t]
        ∧ t.resultsSample = rs.take 100
        ∧ t.resultsSample.length ≤ 100
        ∧ t.resultsCount = rs.length
        ∧ t.executionTime = el)
    ∧ (tsvc (execParams u q qreq cp (jsOrStr qreq.conversationId fid) store)
          = .svcError msg →
      ∃ t : Turn, (executeQuery tsvc u qreq cp fid ffid el nid now store).2 = store ++ [t]
        ∧ t.resultsSample = [] ∧ t.executionTime = el) := by
  refine ⟨?_, ?_, ?_⟩
  · intro hmql hsvc hres
    simp only [executeConfirmedQuery, hmql, hsvc, hres, Option.map_some,
      Option.getD_some]
    refine ⟨_, rfl, rfl, ?_, rfl, rfl⟩
    simp [List.length_take_le 100 rs]
  · intro hsvc hres
    simp only [executeQuery, hq, if_neg hq0, if_neg hq5, hsvc, hres,
      Option.map_some, Option.getD_some]
    refine ⟨_, rfl, rfl, ?_, rfl, rfl⟩
    simp [List.length_take_le 100 rs]
  · intro hsvc
    simp only [executeQuery, hq, if_neg hq0, if_neg hq5, hsvc]
    exact ⟨_, rfl, rfl, rfl⟩

/-- Claim C8 (witness): the bounded-recording statement evaluated at
the concrete services and the salary result list. -/
theorem recorded_sample_bounded_witness :
    ∃ t : Turn, (executeConfirmedQuery okSvc cexUser cexConfirmReq "f" 9 1 10 []).2 = [] ++ [t]
      ∧ t.resultsSample = [salaryDoc].take 100
      ∧ t.resultsSample.length ≤ 100
      ∧ t.resultsCount = [salaryDoc].length
      ∧ t.executionTime = 9 :=
  (recorded_sample_bounded okSvc okTrSvc cexUser cexConfirmReq c6Req none "f" "g"
      9 1 10 [] salaryMql { results := some [salaryDoc], explanation := some "Executed." }
      [salaryDoc] "list products" okNlp "boom" rfl (by decide) (by decide)).1
    rfl rfl rfl

/-! Claim C9 — user-scoped, idempotent turn deletion. -/

/-- Helper: an element not matched by the predicate survives
`eraseP`. -/
theorem mem_eraseP_of_not {p : Turn → Bool} {l : List Turn} {x : Turn}
    (hx : x ∈ l) (hp : p x = false) : x ∈ l.eraseP p := by
  induction l with
  | nil => cases hx
  | cons y ys ih =>
    rw [List.eraseP_cons]
    cases hmem : p y with
    | true =>
      simp only [hmem, cond_true]
      rcases List.mem_cons.mp hx with rfl | h
      · rw [hmem] at hp; cases hp
      · exact h
    | false =>
      simp only [hmem, cond_false]
      rcases List.mem_cons.mp hx with rfl | h
      · exact List.mem_cons_self _ _
      · exact List.mem_cons_of_mem _ (ih h)

/-- Helper: with duplicate-free ids, erasing by the id of a stored
turn leaves no turn with that id. -/
theorem eraseP_id_complete {l : List Turn} (hnd : (l.map Turn.id).Nodup)
    {a : Turn} (ha : a ∈ l) {x : Turn}
    (hx : x ∈ l.eraseP (fun t => t.id = a.id)) : x.id ≠ a.id := by
  induction l with
  | nil => cases ha
  | cons y ys ih =>
    rw [List.eraseP_cons] at hx
    rw [List.map_cons, List.nodup_cons] at hnd
    obtain ⟨hy, hnd'⟩ := hnd
    by_cases hpy : y.id = a.id
    · rw [decide_eq_true hpy, cond_true] at hx
      intro hxa
      have hxy : x.id = y.id := by rw [hxa, hpy]
      have hxmap : x.id ∈ ys.map Turn.id := List.mem_map_of_mem Turn.id hx
      rw [hxy] at hxmap
      exact hy hxmap
    · rw [decide_eq_false hpy, cond_false] at hx
      have ha' : a ∈ ys := by
        rcases List.mem_cons.mp ha with rfl | h
        · exact absurd rfl hpy
        · exact h
      rcases List.mem_cons.mp hx with rfl | h
      · exact hpy
      · exact ih hnd' ha' h

/-- Helper: with duplicate-free ids, two stored turns with the same id
coincide. -/
theorem id_injective {l : List Turn} (hnd : (l.map Turn.id).Nodup)
    {a b : Turn} (ha : a ∈ l) (hb : b ∈ l) (hab : a.id = b.id) : a = b :=
  List.inj_on_of_nodup_map hnd ha hb hab

/-- Claim C9: deletion is user-scoped and idempotent in its error
behaviour.  With duplicate-free record ids: a delete with no record
matching both the id and the acting user answers 404 and leaves the
store unchanged; every non-matching record survives any delete; the
resulting store only contains records of the original store; and an
immediate second delete of the same id by the same user answers 404
and changes nothing. -/
theorem turnDeletion_scoped_idempotent (store : List Turn) (uid qid : Nat)
    (hnd : (store.map Turn.id).Nodup) :
    ((∀ t ∈ store, ¬(t.id = qid ∧ t.userId = uid)) →
      deleteQuery store uid qid
        = ({ status := 404, success := false, message := some "Query not found" }, store))
    ∧ (∀ t ∈ store, ¬(t.id = qid ∧ t.userId = uid) → t ∈ (deleteQuery store uid qid).2)
    ∧ (∀ t ∈ (deleteQuery store uid qid).2, t ∈ store)
    ∧ deleteQuery (deleteQuery store uid qid).2 uid qid
        = ({ status := 404, success := false, message := some "Query not found" },
           (deleteQuery store uid qid).2) := by
  have hfindnone : (∀ t ∈ store, ¬(t.id = qid ∧ t.userId = uid)) →
      store.find? (fun t => t.id = qid && t.userId = uid) = none := by
    intro h
    rw [List.find?_eq_none]
    intro t ht
    simp only [Bool.and_eq_true, decide_eq_true_eq]
    exact fun hc => h t ht hc
  refine ⟨?_, ?_, ?_, ?_⟩
  · intro h
    unfold deleteQuery
    rw [hfindnone h]
  · intro t ht hne
    unfold deleteQuery
    cases hfind : store.find? (fun t => t.id = qid && t.userId = uid) with
    | none => exact ht
    | some q0 =>
      have hq0mem : q0 ∈ store := List.mem_of_find?_eq_some hfind
      have hq0prop : q0.id = qid ∧ q0.userId = uid := by
        have := List.find?_some hfind
        simpa using this
      apply mem_eraseP_of_not ht
      simp only [decide_eq_false_iff_not]
      intro hid
      have : t = q0 := id_injective hnd ht hq0mem (by rw [hid, hq0prop.1])
      rw [this] at hne
      exact hne hq0prop
  · intro t ht
    unfold deleteQuery at ht
    cases hfind : store.find? (fun t => t.id = qid && t.userId = uid) with
    | none => rw [hfind] at ht; exact ht
    | some q0 =>
      rw [hfind] at ht
      exact (List.eraseP_sublist store).subset ht
  · cases hfind : store.find? (fun t => t.id = qid && t.userId = uid) with
    | none =>
      unfold deleteQuery
      rw [hfind]
      simp only
      rw [hfind]
    | some q0 =>
      have hq0mem : q0 ∈ store := List.mem_of_find?_eq_some hfind
      have hq0prop : q0.id = qid ∧ q0.userId = uid := by
        have := List.find?_some hfind
        simpa using this
      have hsecond : (store.eraseP (fun t => t.id = q0.id)).find?
          (fun t => t.id = qid && t.userId = uid) = none := by
        rw [List.find?_eq_none]
        intro x hx
        have hxid := eraseP_id_complete hnd hq0mem hx
        simp only [Bool.and_eq_true, decide_eq_true_eq]
        intro hc
        exact hxid (by rw [hc.1, hq0prop.1])
      unfold deleteQuery
      rw [hfind]
      simp only
      rw [hsecond]

/-- Claim C9 (witness): the deletion statement evaluated at a two-user
store — deleting the other users record answers 404 without change,
and a second delete of an own record answers 404 on the reduced
store. -/
theorem turnDeletion_scoped_idempotent_witness :
    (deleteQuery [c7t1, convBTurn] 9 101
        = ({ status := 404, success := false, message := some "Query not found" },
           [c7t1, convBTurn]))
    ∧ deleteQuery (deleteQuery [c7t1, convBTurn] 7 101).2 7 101
        = ({ status := 404, success := false, message := some "Query not found" },
           (deleteQuery [c7t1, convBTurn] 7 101).2) :=
  ⟨(turnDeletion_scoped_idempotent [c7t1, convBTurn] 9 101 (by decide)).1
     (by decide),
   (turnDeletion_scoped_idempotent [c7t1, convBTurn] 7 101 (by decide)).2.2.2⟩

/-! Claim C10 — the listing projection excludes the sample, the
conversation retrieval does not. -/

/-- Claim C10: every record of the paginated history listing is the
sample-free projection of a stored turn of the acting user — the
projection is insensitive to the result sample, which is how the
`select(-results.sample)` exclusion is captured — while the
single-conversation retrieval returns stored turns themselves, samples
included. -/
theorem historyListing_omits_sample (store : List Turn) (uid lim skp : Nat)
    (cid : String) (v : HistoryView)
    (hv : v ∈ (getHistory store uid lim skp).1) :
    (∃ t : Turn, t ∈ store ∧ t.userId = uid ∧ v = toHistoryView t)
    ∧ (∀ (t : Turn) (s : List Doc),
        toHistoryView { t with resultsSample := s } = toHistoryView t)
    ∧ (∀ turns, getConversation store uid cid = some turns →
        ∀ t ∈ turns, t ∈ store) := by
  refine ⟨?_, fun t s => rfl, ?_⟩
  · unfold getHistory at hv
    simp only [List.mem_map] at hv
    obtain ⟨t, ht, hvt⟩ := hv
    have h1 : t ∈ (sortByTsDesc (store.filter (fun x => x.userId = uid))).drop skp :=
      List.mem_of_mem_take ht
    have h2 : t ∈ sortByTsDesc (store.filter (fun x => x.userId = uid)) :=
      List.mem_of_mem_drop h1
    have h3 : t ∈ store.filter (fun x => x.userId = uid) := mem_sortByTsDesc.mp h2
    rw [List.mem_filter] at h3
    exact ⟨t, h3.1, by simpa using h3.2, hvt.symm⟩
  · intro turns hturns t ht
    unfold getConversation at hturns
    by_cases hempty : (sortByTsAsc (convTurns store uid cid)).isEmpty
    · rw [if_pos hempty] at hturns
      cases hturns
    · rw [if_neg hempty] at hturns
      obtain rfl : sortByTsAsc (convTurns store uid cid) = turns :=
        Option.some.inj hturns
      have h1 : t ∈ convTurns store uid cid := mem_sortByTsAsc.mp ht
      unfold convTurns at h1
      rw [List.mem_filter] at h1
      exact h1.1

/-- Claim C10 (witness): the projection statement evaluated at the
fixture store — the view of the most recent fixture turn appears in
the listing, and the conversation retrieval returns stored turns. -/
theorem historyListing_omits_sample_witness :
    (∃ t : Turn, t ∈ c7store ∧ t.userId = 7 ∧ toHistoryView c7t3 = toHistoryView t)
    ∧ (∀ (t : Turn) (s : List Doc),
        toHistoryView { t with resultsSample := s } = toHistoryView t)
    ∧ (∀ turns, getConversation c7store 7 "chat" = some turns →
        ∀ t ∈ turns, t ∈ c7store) :=
  historyListing_omits_sample c7store 7 50 0 "chat" (toHistoryView c7t3) (by decide)

end MDash
